import Mathlib

/-!
Verification of the chemical-inventory application.

This file gives a shallow embedding of the core of `app.py`: the data
model (chemicals, in-stock requests, purchase requests), the helper
operations (`list_chemicals`, `upsert_chemical`, `update_stock`,
`add_request`, `list_requests`, `set_request_status`,
`add_purchase_request`, `list_purchase_requests`,
`set_purchase_request_status`) and the approval engine
(`approve_request_and_adjust`).

Modelling conventions:
* database tables become lists of records; `AUTOINCREMENT` primary keys
  become explicit counters starting at 1;
* SQL floats (amounts, quantities) become rationals;
* Python `str.strip()` becomes `pyStrip` (drop whitespace at both ends);
* SQL `ILIKE '%s%'` becomes lower-cased substring containment;
* `ORDER BY` becomes `List.insertionSort` with the corresponding key
  ordering (binary codepoint order on names, numeric order on ids);
* the strings built with f-strings in return values are modelled by the
  inductive `ApproveMsg`, whose constructors carry exactly the values
  interpolated into the corresponding message;
* an ORM session that loads records, mutates them and commits becomes a
  pure function from the database state to the new database state.
-/

namespace ChemInv

/-- Model of Python `str.strip()` on the underlying character list:
whitespace is dropped from both ends. -/
def stripChars (l : List Char) : List Char :=
  ((l.dropWhile Char.isWhitespace).reverse.dropWhile Char.isWhitespace).reverse

/-- Model of Python `str.strip()`. -/
def pyStrip (s : String) : String := ⟨stripChars s.data⟩

/-- Lower-casing of a character list, as applied by SQL `ILIKE` /
`LOWER(...) LIKE`. -/
def lowerChars (l : List Char) : List Char := l.map Char.toLower

/-- Test whether the first character list is a prefix of the second. -/
def strStarts : List Char → List Char → Bool
  | [], _ => true
  | _ :: _, [] => false
  | a :: as, b :: bs => a == b && strStarts as bs

/-- Test whether `needle` occurs as a contiguous substring of the second
argument, which is how `LIKE '%needle%'` matches. -/
def strHas (needle : List Char) : List Char → Bool
  | [] => strStarts needle []
  | c :: t => strStarts needle (c :: t) || strHas needle t

/-- Model of the SQL condition `name ILIKE '%search%'`: case-insensitive
substring match of `search` inside `name`. -/
def ilikeSub (search name : String) : Bool :=
  strHas (lowerChars search.data) (lowerChars name.data)

/-- Binary (codepoint) ordering of strings given by their character
lists, the collation used by `ORDER BY name ASC`. -/
def charListLe : List Char → List Char → Bool
  | [], _ => true
  | _ :: _, [] => false
  | a :: as, b :: bs =>
    if a < b then true
    else if a = b then charListLe as bs
    else false

/-- Row of the `chemicals` table (`app.py`, class `Chemical`). -/
structure Chemical where
  id : Nat
  name : String
  amount : ℚ
  unit : String
  location : String
  notes : String
deriving DecidableEq, Repr

/-- Row of the `requests` table (`app.py`, class `Request`). -/
structure Request where
  id : Nat
  chem_id : Nat
  first_name : String
  surname : String
  requester_email : String
  quantity : ℚ
  status : String
  created_at : Nat
deriving DecidableEq, Repr

/-- Row of the `purchase_requests` table (`app.py`, class
`PurchaseRequest`). -/
structure PurchaseRequest where
  id : Nat
  material_name : String
  cas_number : String
  specifications : String
  amount : ℚ
  unit : String
  requester_first_name : String
  requester_surname : String
  requester_email : String
  comments : String
  attachment_path : String
  status : String
  created_at : Nat
deriving DecidableEq, Repr

/-- The whole database state: the three tables, the autoincrement
counters, and a logical clock standing for `datetime.utcnow()`. -/
structure DB where
  chemicals : List Chemical
  requests : List Request
  purchases : List PurchaseRequest
  nextChemId : Nat
  nextReqId : Nat
  nextPurId : Nat
  clock : Nat
deriving DecidableEq, Repr

/-- The freshly created database: empty tables, counters at 1. -/
def emptyDB : DB :=
  { chemicals := [], requests := [], purchases := [],
    nextChemId := 1, nextReqId := 1, nextPurId := 1, clock := 0 }

/-- Apply `f` to the first element of the list satisfying `p`, leaving
everything else in place.  This is how an ORM session mutation of the
single record returned by a primary-key or unique-column lookup acts on
the table. -/
def updateFirst (f : α → α) (p : α → Bool) : List α → List α
  | [] => []
  | x :: t => if p x then f x :: t else x :: updateFirst f p t

/-- Row shape returned by `list_chemicals` (`SELECT id, name, amount,
unit, location`). -/
structure ChemRow where
  id : Nat
  name : String
  amount : ℚ
  unit : String
  location : String
deriving DecidableEq, Repr

/-- Projection of a chemical onto the columns selected by
`list_chemicals`. -/
def chemRow (c : Chemical) : ChemRow :=
  { id := c.id, name := c.name, amount := c.amount, unit := c.unit,
    location := c.location }

/-- Ordering of result rows by name, ascending (`ORDER BY name ASC`). -/
def rowLe (a b : ChemRow) : Prop := charListLe a.name.data b.name.data = true

instance : DecidableRel rowLe := fun a b => by
  unfold rowLe; infer_instance

/-- Embedding of `list_chemicals(search)` (`app.py` lines 118-124):
select the five columns, filter with `name ILIKE '%search%'` when
`search` is truthy (non-empty), and order ascending by name. -/
def list_chemicals (db : DB) (search : String) : List ChemRow :=
  let rows := db.chemicals.map chemRow
  let rows := if search.isEmpty then rows
              else rows.filter fun r => ilikeSub search r.name
  List.insertionSort rowLe rows

/-- Embedding of `upsert_chemical(name, amount, unit, location, notes)`
(`app.py` lines 126-138): look up the chemical whose name equals the
stripped input name; insert a fresh record if there is none, otherwise
overwrite its amount, unit, location and notes. -/
def upsert_chemical (db : DB) (name : String) (amount : ℚ)
    (unit location notes : String) : DB :=
  match db.chemicals.find? (fun c => c.name == pyStrip name) with
  | none =>
      { db with
        chemicals := db.chemicals ++
          [{ id := db.nextChemId, name := pyStrip name, amount := amount,
             unit := pyStrip unit, location := pyStrip location,
             notes := pyStrip notes }],
        nextChemId := db.nextChemId + 1 }
  | some _ =>
      { db with
        chemicals := updateFirst
          (fun c =>
            { c with amount := amount, unit := pyStrip unit,
                     location := pyStrip location, notes := pyStrip notes })
          (fun c => c.name == pyStrip name) db.chemicals }

/-- Embedding of `update_stock(chem_id, delta_amount)` (`app.py` lines
140-146): raise `ValueError("Chemical not found")` when the id does not
exist, otherwise add the delta to the chemical's amount.  The raised
exception is modelled as `Except.error`. -/
def update_stock (db : DB) (chem_id : Nat) (delta_amount : ℚ) :
    Except String DB :=
  match db.chemicals.find? (fun c => c.id == chem_id) with
  | none => .error "Chemical not found"
  | some _ =>
      .ok { db with
            chemicals := updateFirst
              (fun c => { c with amount := c.amount + delta_amount })
              (fun c => c.id == chem_id) db.chemicals }

/-- Embedding of `add_request(chem_id, first_name, surname, email, qty)`
(`app.py` lines 148-160): unconditionally insert a new request with
status `"pending"` and `created_at := datetime.utcnow()` (the logical
clock). -/
def add_request (db : DB) (chem_id : Nat)
    (first_name surname email : String) (qty : ℚ) : DB :=
  { db with
    requests := db.requests ++
      [{ id := db.nextReqId, chem_id := chem_id,
         first_name := pyStrip first_name, surname := pyStrip surname,
         requester_email := pyStrip email, quantity := qty,
         status := "pending", created_at := db.clock }],
    nextReqId := db.nextReqId + 1,
    clock := db.clock + 1 }

/-- Row shape returned by `list_requests`. -/
structure ReqRow where
  id : Nat
  chem_name : String
  quantity : ℚ
  first_name : String
  surname : String
  requester_email : String
  status : String
  created_at : Nat
deriving DecidableEq, Repr

/-- Ordering of request rows by id, descending (`ORDER BY r.id DESC`). -/
def reqRowGe (a b : ReqRow) : Prop := b.id ≤ a.id

instance : DecidableRel reqRowGe := fun a b => by
  unfold reqRowGe; infer_instance

/-- The `JOIN chemicals c ON r.chem_id = c.id` of `list_requests`: each
request is joined with the chemical bearing its `chem_id`; requests with
a dangling `chem_id` produce no row (inner join). -/
def joinReqRows (db : DB) : List ReqRow :=
  db.requests.filterMap fun r =>
    (db.chemicals.find? (fun c => c.id == r.chem_id)).map fun c =>
      { id := r.id, chem_name := c.name, quantity := r.quantity,
        first_name := r.first_name, surname := r.surname,
        requester_email := r.requester_email, status := r.status,
        created_at := r.created_at }

/-- Embedding of `list_requests(status)` (`app.py` lines 162-175): join
requests with chemicals, optionally filter on exact status equality when
`status` is truthy, and order by descending id. -/
def list_requests (db : DB) (status : Option String) : List ReqRow :=
  let rows := joinReqRows db
  let rows := match status with
    | some s => if s.isEmpty then rows
                else rows.filter fun row => row.status == s
    | none => rows
  List.insertionSort reqRowGe rows

/-- Embedding of `set_request_status(req_id, new_status)` (`app.py`
lines 177-182): overwrite the status of the request with the given id if
it exists, otherwise do nothing. -/
def set_request_status (db : DB) (req_id : Nat) (new_status : String) : DB :=
  match db.requests.find? (fun r => r.id == req_id) with
  | none => db
  | some _ =>
      { db with
        requests := updateFirst (fun r => { r with status := new_status })
          (fun r => r.id == req_id) db.requests }

/-- Embedding of `add_purchase_request(...)` (`app.py` lines 194-213):
unconditionally insert a purchase request with status `"pending"`. -/
def add_purchase_request (db : DB)
    (material_name cas_number specifications : String) (amount : ℚ)
    (unit requester_first_name requester_surname requester_email
      comments attachment_path : String) : DB :=
  { db with
    purchases := db.purchases ++
      [{ id := db.nextPurId,
         material_name := pyStrip material_name,
         cas_number := pyStrip cas_number,
         specifications := pyStrip specifications,
         amount := amount, unit := pyStrip unit,
         requester_first_name := pyStrip requester_first_name,
         requester_surname := pyStrip requester_surname,
         requester_email := pyStrip requester_email,
         comments := pyStrip comments,
         attachment_path := pyStrip attachment_path,
         status := "pending", created_at := db.clock }],
    nextPurId := db.nextPurId + 1,
    clock := db.clock + 1 }

/-- Ordering of purchase-request rows by id, descending. -/
def purRowGe (a b : PurchaseRequest) : Prop := b.id ≤ a.id

instance : DecidableRel purRowGe := fun a b => by
  unfold purRowGe; infer_instance

/-- Embedding of `list_purchase_requests(status)` (`app.py` lines
215-228): all columns of the table, optionally filtered on exact status
equality, ordered by descending id. -/
def list_purchase_requests (db : DB) (status : Option String) :
    List PurchaseRequest :=
  let rows := db.purchases
  let rows := match status with
    | some s => if s.isEmpty then rows
                else rows.filter fun pr => pr.status == s
    | none => rows
  List.insertionSort purRowGe rows

/-- Embedding of `set_purchase_request_status(req_id, new_status)`
(`app.py` lines 230-235). -/
def set_purchase_request_status (db : DB) (req_id : Nat)
    (new_status : String) : DB :=
  match db.purchases.find? (fun pr => pr.id == req_id) with
  | none => db
  | some _ =>
      { db with
        purchases := updateFirst (fun pr => { pr with status := new_status })
          (fun pr => pr.id == req_id) db.purchases }

/-- The messages returned by `approve_request_and_adjust`, one
constructor per f-string of the source, carrying exactly the values
interpolated into it. -/
inductive ApproveMsg where
  /-- The message `"Request not found."`. -/
  | requestNotFound
  /-- The message `"Request already {status}; no stock changed."`. -/
  | alreadyProcessed (status : String)
  /-- The message `"Chemical not found."`. -/
  | chemicalNotFound
  /-- The message `"Invalid quantity."`. -/
  | invalidQuantity
  /-- The message `"Not enough stock: have {have} {unit}, need {need}
  {unit}."`. -/
  | notEnoughStock (haveAmt : ℚ) (needAmt : ℚ) (unit : String)
  /-- The message `"Approved. New stock of {name}: {amount} {unit}"`. -/
  | approvedNewStock (name : String) (newAmount : ℚ) (unit : String)
deriving DecidableEq, Repr

/-- Embedding of `approve_request_and_adjust(req_id)` (`app.py` lines
237-256).  Returns the `(ok, message)` pair of the source together with
the resulting database state. -/
def approve_request_and_adjust (db : DB) (req_id : Nat) :
    (Bool × ApproveMsg) × DB :=
  match db.requests.find? (fun r => r.id == req_id) with
  | none => ((false, .requestNotFound), db)
  | some req =>
    if req.status == "approved" || req.status == "fulfilled" then
      ((false, .alreadyProcessed req.status), db)
    else
      match db.chemicals.find? (fun c => c.id == req.chem_id) with
      | none => ((false, .chemicalNotFound), db)
      | some chem =>
        let haveAmt := chem.amount
        let needAmt := req.quantity
        if needAmt ≤ 0 then ((false, .invalidQuantity), db)
        else if haveAmt < needAmt then
          ((false, .notEnoughStock haveAmt needAmt chem.unit), db)
        else
          ((true, .approvedNewStock chem.name (haveAmt - needAmt) chem.unit),
            { db with
              chemicals := updateFirst
                (fun c => { c with amount := haveAmt - needAmt })
                (fun c => c.id == req.chem_id) db.chemicals
              requests := updateFirst
                (fun r => { r with status := "approved" })
                (fun r => r.id == req_id) db.requests })

/-- States reachable from the fresh database by arbitrary calls of the
mutating operations, with no restriction on the arguments.  The listing
queries are pure and do not change the state, so they contribute no
constructor. -/
inductive ReachableAny : DB → Prop where
  | init : ReachableAny emptyDB
  | upsert (db : DB) (name : String) (amount : ℚ)
      (unit location notes : String) : ReachableAny db →
      ReachableAny (upsert_chemical db name amount unit location notes)
  | adjust (db db' : DB) (chem_id : Nat) (delta : ℚ) : ReachableAny db →
      update_stock db chem_id delta = .ok db' → ReachableAny db'
  | addReq (db : DB) (chem_id : Nat) (fn sn em : String) (qty : ℚ) :
      ReachableAny db → ReachableAny (add_request db chem_id fn sn em qty)
  | setReq (db : DB) (rid : Nat) (s : String) : ReachableAny db →
      ReachableAny (set_request_status db rid s)
  | addPur (db : DB) (mn cn sp : String) (am : ℚ)
      (un f s e co ap : String) : ReachableAny db →
      ReachableAny (add_purchase_request db mn cn sp am un f s e co ap)
  | setPur (db : DB) (rid : Nat) (s : String) : ReachableAny db →
      ReachableAny (set_purchase_request_status db rid s)
  | approve (db : DB) (rid : Nat) : ReachableAny db →
      ReachableAny (approve_request_and_adjust db rid).2

/-- States reachable from the fresh database when chemicals are only
ever upserted with non-negative amounts and direct stock adjustments
never take the adjusted chemical below zero (the discipline the admin UI
enforces with its non-negative amount widget); `approve_request_and_adjust`
and the other operations are unrestricted. -/
inductive Reachable : DB → Prop where
  | init : Reachable emptyDB
  | upsert (db : DB) (name : String) (amount : ℚ)
      (unit location notes : String) : Reachable db → 0 ≤ amount →
      Reachable (upsert_chemical db name amount unit location notes)
  | adjust (db db' : DB) (chem_id : Nat) (delta : ℚ) : Reachable db →
      (∀ c ∈ db.chemicals, c.id = chem_id → 0 ≤ c.amount + delta) →
      update_stock db chem_id delta = .ok db' → Reachable db'
  | addReq (db : DB) (chem_id : Nat) (fn sn em : String) (qty : ℚ) :
      Reachable db → Reachable (add_request db chem_id fn sn em qty)
  | setReq (db : DB) (rid : Nat) (s : String) : Reachable db →
      Reachable (set_request_status db rid s)
  | addPur (db : DB) (mn cn sp : String) (am : ℚ)
      (un f s e co ap : String) : Reachable db →
      Reachable (add_purchase_request db mn cn sp am un f s e co ap)
  | setPur (db : DB) (rid : Nat) (s : String) : Reachable db →
      Reachable (set_purchase_request_status db rid s)
  | approve (db : DB) (rid : Nat) : Reachable db →
      Reachable (approve_request_and_adjust db rid).2

/-! ### Concrete states used by witnesses and counterexamples -/

/-- A store holding 5 L of Ethanol. -/
def dbEthanol : DB := upsert_chemical emptyDB "Ethanol" 5 "L" "Cabinet" ""

/-- The Ethanol store with one pending request for 2 L. -/
def dbEthReq : DB := add_request dbEthanol 1 "Ada" "Lovelace" "ada@lab.org" 2

/-- The state after approving the pending 2 L request. -/
def dbApproved : DB := (approve_request_and_adjust dbEthReq 1).2

/-- The approved request subsequently overwritten to `"rejected"`. -/
def dbRejected : DB := set_request_status dbApproved 1 "rejected"

/-- A store holding 10 L of Ethanol with a pending request for 15 L. -/
def dbBig : DB :=
  add_request (upsert_chemical emptyDB "Ethanol" 10 "L" "" "") 1
    "Ada" "Lovelace" "ada@lab.org" 15

/-- A store holding 5 g of a chemical named "X". -/
def dbX : DB := upsert_chemical emptyDB "X" 5 "g" "" ""

/-- The result of adjusting the stock of "X" by -10: a negative amount. -/
def dbNeg : DB :=
  match update_stock dbX 1 (-10) with
  | .ok db => db
  | .error _ => emptyDB

/-- A store with "Zinc" inserted before "Acetone" (non-alphabetical
insertion order). -/
def dbW : DB :=
  upsert_chemical (upsert_chemical emptyDB "Zinc" 3 "g" "" "")
    "Acetone" 1 "L" "" ""

/-- The out-of-order store with two pending requests. -/
def dbWR : DB :=
  add_request (add_request dbW 1 "Ann" "Bell" "ann@lab.org" 1)
    2 "Cam" "Dee" "cam@lab.org" 2

/-! ### Helper lemmas about `updateFirst` and `List.find?` -/

theorem mem_updateFirst {f : α → α} {p : α → Bool} :
    ∀ {l : List α} {x : α}, x ∈ updateFirst f p l →
      x ∈ l ∨ ∃ y, y ∈ l ∧ p y = true ∧ x = f y := by
  intro l
  induction l with
  | nil => intro x hx; simp [updateFirst] at hx
  | cons a t ih =>
    intro x hx
    by_cases hpa : p a
    · simp only [updateFirst, if_pos hpa] at hx
      rcases List.mem_cons.mp hx with h | h
      · exact Or.inr ⟨a, List.mem_cons_self a t, hpa, h⟩
      · exact Or.inl (List.mem_cons_of_mem a h)
    · simp only [updateFirst, if_neg hpa] at hx
      rcases List.mem_cons.mp hx with h | h
      · exact Or.inl (h ▸ List.mem_cons_self a t)
      · rcases ih h with h' | ⟨y, hy, hpy, hxy⟩
        · exact Or.inl (List.mem_cons_of_mem a h')
        · exact Or.inr ⟨y, List.mem_cons_of_mem a hy, hpy, hxy⟩

theorem find?_updateFirst (f : α → α) (p : α → Bool)
    (hp : ∀ x, p (f x) = p x) :
    ∀ l : List α, (updateFirst f p l).find? p = (l.find? p).map f := by
  intro l
  induction l with
  | nil => rfl
  | cons a t ih =>
    by_cases hpa : p a
    · simp only [updateFirst, if_pos hpa]
      rw [List.find?_cons_of_pos t (by rw [hp]; exact hpa),
          List.find?_cons_of_pos t hpa]
      rfl
    · simp only [updateFirst, if_neg hpa]
      rw [List.find?_cons_of_neg (updateFirst f p t) hpa,
          List.find?_cons_of_neg t hpa, ih]

theorem updateFirst_append_left {f : α → α} {p : α → Bool}
    (l l' : List α) (h : ∀ x ∈ l, p x = false) :
    updateFirst f p (l ++ l') = l ++ updateFirst f p l' := by
  induction l with
  | nil => rfl
  | cons a t ih =>
    have hpa : p a = false := h a (List.mem_cons_self a t)
    simp [List.cons_append, updateFirst, hpa,
      ih fun x hx => h x (List.mem_cons_of_mem a hx)]

theorem filter_updateFirst_single (f : α → α) (p : α → Bool)
    (hp : ∀ x, p x = true → p (f x) = true) :
    ∀ {l : List α} {c : α}, l.filter p = [c] →
      (updateFirst f p l).filter p = [f c] := by
  intro l
  induction l with
  | nil => intro c hc; simp at hc
  | cons a t ih =>
    intro c hc
    by_cases hpa : p a
    · rw [List.filter_cons_of_pos hpa] at hc
      have ha : a = c := (List.cons_eq_cons.mp hc).1
      have ht : t.filter p = [] := (List.cons_eq_cons.mp hc).2
      simp only [updateFirst, if_pos hpa]
      rw [List.filter_cons_of_pos (hp a hpa), ht, ha]
    · rw [List.filter_cons_of_neg (by simpa using hpa)] at hc
      simp only [updateFirst, if_neg hpa]
      rw [List.filter_cons_of_neg (by simpa using hpa), ih hc]

theorem filter_eq_of_find?_some {p : α → Bool} :
    ∀ {l : List α} {c : α}, l.find? p = some c →
      (l.filter p).length ≤ 1 → l.filter p = [c] := by
  intro l
  induction l with
  | nil => intro c hc; simp at hc
  | cons a t ih =>
    intro c hc hlen
    by_cases hpa : p a
    · rw [List.find?_cons_of_pos t hpa] at hc
      rw [List.filter_cons_of_pos hpa] at hlen ⊢
      have : t.filter p = [] := by
        cases h : t.filter p with
        | nil => rfl
        | cons x xs => rw [h] at hlen; simp at hlen
      rw [this]
      simpa using hc
    · rw [List.find?_cons_of_neg t hpa] at hc
      rw [List.filter_cons_of_neg (by simpa using hpa)] at hlen ⊢
      exact ih hc hlen

theorem find?_none_of_filter_nil {p : α → Bool} {l : List α}
    (h : l.filter p = []) : l.find? p = none := by
  rw [List.find?_eq_none]
  intro x hx hpx
  have hmem : x ∈ l.filter p := List.mem_filter.mpr ⟨hx, hpx⟩
  rw [h] at hmem
  simp at hmem

/-! ### The codepoint ordering is a total preorder, antisymmetric -/

theorem charListLe_total : ∀ l₁ l₂ : List Char,
    charListLe l₁ l₂ = true ∨ charListLe l₂ l₁ = true := by
  intro l₁
  induction l₁ with
  | nil => intro l₂; left; rfl
  | cons a as ih =>
    intro l₂
    cases l₂ with
    | nil => right; rfl
    | cons b bs =>
      rcases lt_trichotomy a b with h | h | h
      · left; simp [charListLe, h]
      · subst h
        rcases ih bs with h' | h'
        · left; simp [charListLe, h']
        · right; simp [charListLe, h']
      · right; simp [charListLe, h]

theorem charListLe_trans : ∀ l₁ l₂ l₃ : List Char,
    charListLe l₁ l₂ = true → charListLe l₂ l₃ = true →
    charListLe l₁ l₃ = true := by
  intro l₁
  induction l₁ with
  | nil => intro l₂ l₃ _ _; rfl
  | cons a as ih =>
    intro l₂ l₃ h12 h23
    cases l₂ with
    | nil => simp [charListLe] at h12
    | cons b bs =>
      cases l₃ with
      | nil => simp [charListLe] at h23
      | cons c cs =>
        rcases lt_trichotomy a b with hab | hab | hab
        · rcases lt_trichotomy b c with hbc | hbc | hbc
          · simp [charListLe, lt_trans hab hbc]
          · subst hbc; simp [charListLe, hab]
          · simp [charListLe, lt_asymm hbc, hbc.ne'] at h23
        · subst hab
          simp only [charListLe, lt_irrefl, if_neg, if_pos rfl] at h12
          rcases lt_trichotomy a c with hbc | hbc | hbc
          · simp [charListLe, hbc]
          · subst hbc
            simp only [charListLe, lt_irrefl, if_neg, if_pos rfl] at h23 ⊢
            simpa using ih bs cs (by simpa using h12) (by simpa using h23)
          · simp [charListLe, lt_asymm hbc, hbc.ne'] at h23
        · simp [charListLe, lt_asymm hab, hab.ne'] at h12

theorem charListLe_antisymm : ∀ l₁ l₂ : List Char,
    charListLe l₁ l₂ = true → charListLe l₂ l₁ = true → l₁ = l₂ := by
  intro l₁
  induction l₁ with
  | nil =>
    intro l₂ _ h21
    cases l₂ with
    | nil => rfl
    | cons b bs => simp [charListLe] at h21
  | cons a as ih =>
    intro l₂ h12 h21
    cases l₂ with
    | nil => simp [charListLe] at h12
    | cons b bs =>
      rcases lt_trichotomy a b with hab | hab | hab
      · simp [charListLe, lt_asymm hab, hab.ne'] at h21
      · subst hab
        simp only [charListLe, lt_irrefl, if_neg, if_pos rfl] at h12 h21
        rw [ih bs (by simpa using h12) (by simpa using h21)]
      · simp [charListLe, lt_asymm hab, hab.ne'] at h12

instance : IsTotal ChemRow rowLe :=
  ⟨fun a b => charListLe_total a.name.data b.name.data⟩

instance : IsTrans ChemRow rowLe :=
  ⟨fun a b c => charListLe_trans a.name.data b.name.data c.name.data⟩

instance : IsTotal ReqRow reqRowGe := ⟨fun a b => Nat.le_total b.id a.id⟩

instance : IsTrans ReqRow reqRowGe :=
  ⟨fun _ _ _ h1 h2 => Nat.le_trans h2 h1⟩

instance : IsTotal PurchaseRequest purRowGe :=
  ⟨fun a b => Nat.le_total b.id a.id⟩

instance : IsTrans PurchaseRequest purRowGe :=
  ⟨fun _ _ _ h1 h2 => Nat.le_trans h2 h1⟩

theorem string_eq_of_data_eq {s₁ s₂ : String} (h : s₁.data = s₂.data) :
    s₁ = s₂ := by
  cases s₁; cases s₂; exact congrArg String.mk h

/-- Two lists of result rows that are permutations of each other, both
sorted by name, with pairwise-distinct names, are equal: the output of
`ORDER BY name` does not depend on the order rows were inserted. -/
theorem sorted_key_eq : ∀ {l₁ l₂ : List ChemRow}, l₁.Perm l₂ →
    List.Sorted rowLe l₁ → List.Sorted rowLe l₂ →
    (l₁.map ChemRow.name).Nodup → l₁ = l₂ := by
  intro l₁
  induction l₁ with
  | nil => intro l₂ hp _ _ _; exact (hp.symm.eq_nil).symm
  | cons a t ih =>
    intro l₂ hp hs₁ hs₂ hnd
    cases l₂ with
    | nil => exact absurd hp.eq_nil (by simp)
    | cons b t₂ =>
      by_cases hab : a = b
      · subst hab
        rw [ih hp.cons_inv (List.sorted_cons.mp hs₁).2
          (List.sorted_cons.mp hs₂).2 (by simpa using hnd.of_cons)]
      · exfalso
        have hbmem : b ∈ a :: t := hp.symm.subset (List.mem_cons_self b t₂)
        have hamem : a ∈ b :: t₂ := hp.subset (List.mem_cons_self a t)
        have hb_t : b ∈ t := by
          rcases List.mem_cons.mp hbmem with h | h
          · exact absurd h.symm hab
          · exact h
        have ha_t₂ : a ∈ t₂ := by
          rcases List.mem_cons.mp hamem with h | h
          · exact absurd h hab
          · exact h
        have h₁ : rowLe a b := (List.sorted_cons.mp hs₁).1 b hb_t
        have h₂ : rowLe b a := (List.sorted_cons.mp hs₂).1 a ha_t₂
        have hname : a.name = b.name :=
          string_eq_of_data_eq (charListLe_antisymm _ _ h₁ h₂)
        have : a.name ∈ t.map ChemRow.name :=
          hname ▸ List.mem_map_of_mem ChemRow.name hb_t
        exact (List.nodup_cons.mp (by simpa using hnd)).1 this

/-! ### Evaluation lemmas for the approval engine -/

theorem approve_success_eq (db : DB) (rid : Nat) (req : Request)
    (chem : Chemical)
    (hr : db.requests.find? (fun r => r.id == rid) = some req)
    (hst : (req.status == "approved" || req.status == "fulfilled") = false)
    (hc : db.chemicals.find? (fun c => c.id == req.chem_id) = some chem)
    (hq : ¬ req.quantity ≤ 0) (hlt : ¬ chem.amount < req.quantity) :
    approve_request_and_adjust db rid =
      ((true, .approvedNewStock chem.name (chem.amount - req.quantity)
          chem.unit),
        { db with
          chemicals := updateFirst
            (fun c => { c with amount := chem.amount - req.quantity })
            (fun c => c.id == req.chem_id) db.chemicals,
          requests := updateFirst
            (fun r => { r with status := "approved" })
            (fun r => r.id == rid) db.requests }) := by
  simp [approve_request_and_adjust, hr, hst, hc, hq, hlt]

theorem approve_deny_state (db : DB) (rid : Nat) (msg : ApproveMsg)
    (db' : DB)
    (h : approve_request_and_adjust db rid = ((false, msg), db')) :
    db' = db := by
  cases hr : db.requests.find? (fun r => r.id == rid) with
  | none =>
    rw [show approve_request_and_adjust db rid = ((false, .requestNotFound), db)
      from by simp [approve_request_and_adjust, hr]] at h
    exact (Prod.mk.injEq _ _ _ _ ▸ h).2.symm
  | some req =>
    by_cases hst : (req.status == "approved" || req.status == "fulfilled") = true
    · rw [show approve_request_and_adjust db rid =
        ((false, .alreadyProcessed req.status), db)
        from by simp [approve_request_and_adjust, hr, hst]] at h
      exact (Prod.mk.injEq _ _ _ _ ▸ h).2.symm
    · cases hc : db.chemicals.find? (fun c => c.id == req.chem_id) with
      | none =>
        rw [show approve_request_and_adjust db rid =
          ((false, .chemicalNotFound), db)
          from by simp [approve_request_and_adjust, hr, hst, hc]] at h
        exact (Prod.mk.injEq _ _ _ _ ▸ h).2.symm
      | some chem =>
        by_cases hq : req.quantity ≤ 0
        · rw [show approve_request_and_adjust db rid =
            ((false, .invalidQuantity), db)
            from by simp [approve_request_and_adjust, hr, hst, hc, hq]] at h
          exact (Prod.mk.injEq _ _ _ _ ▸ h).2.symm
        · by_cases hlt : chem.amount < req.quantity
          · rw [show approve_request_and_adjust db rid =
              ((false, .notEnoughStock chem.amount req.quantity chem.unit), db)
              from by simp [approve_request_and_adjust, hr, hst, hc, hq, hlt]]
              at h
            exact (Prod.mk.injEq _ _ _ _ ▸ h).2.symm
          · rw [approve_success_eq db rid req chem hr (by simpa using hst)
              hc hq hlt] at h
            exact absurd (congrArg (fun x => x.1.1) h) (by simp)

theorem approve_success_inv (db : DB) (rid : Nat) (msg : ApproveMsg)
    (db' : DB)
    (h : approve_request_and_adjust db rid = ((true, msg), db')) :
    ∃ req chem,
      db.requests.find? (fun r => r.id == rid) = some req ∧
      (req.status == "approved" || req.status == "fulfilled") = false ∧
      db.chemicals.find? (fun c => c.id == req.chem_id) = some chem ∧
      ¬ req.quantity ≤ 0 ∧ ¬ chem.amount < req.quantity ∧
      db' = { db with
        chemicals := updateFirst
          (fun c => { c with amount := chem.amount - req.quantity })
          (fun c => c.id == req.chem_id) db.chemicals,
        requests := updateFirst
          (fun r => { r with status := "approved" })
          (fun r => r.id == rid) db.requests } := by
  cases hr : db.requests.find? (fun r => r.id == rid) with
  | none =>
    rw [show approve_request_and_adjust db rid = ((false, .requestNotFound), db)
      from by simp [approve_request_and_adjust, hr]] at h
    exact absurd (congrArg (fun x => x.1.1) h) (by simp)
  | some req =>
    by_cases hst : (req.status == "approved" || req.status == "fulfilled") = true
    · rw [show approve_request_and_adjust db rid =
        ((false, .alreadyProcessed req.status), db)
        from by simp [approve_request_and_adjust, hr, hst]] at h
      exact absurd (congrArg (fun x => x.1.1) h) (by simp)
    · cases hc : db.chemicals.find? (fun c => c.id == req.chem_id) with
      | none =>
        rw [show approve_request_and_adjust db rid =
          ((false, .chemicalNotFound), db)
          from by simp [approve_request_and_adjust, hr, hst, hc]] at h
        exact absurd (congrArg (fun x => x.1.1) h) (by simp)
      | some chem =>
        by_cases hq : req.quantity ≤ 0
        · rw [show approve_request_and_adjust db rid =
            ((false, .invalidQuantity), db)
            from by simp [approve_request_and_adjust, hr, hst, hc, hq]] at h
          exact absurd (congrArg (fun x => x.1.1) h) (by simp)
        · by_cases hlt : chem.amount < req.quantity
          · rw [show approve_request_and_adjust db rid =
              ((false, .notEnoughStock chem.amount req.quantity chem.unit), db)
              from by simp [approve_request_and_adjust, hr, hst, hc, hq, hlt]]
              at h
            exact absurd (congrArg (fun x => x.1.1) h) (by simp)
          · rw [approve_success_eq db rid req chem hr (by simpa using hst)
              hc hq hlt] at h
            exact ⟨req, chem, rfl, by simpa using hst, hc, hq, hlt,
              ((Prod.mk.injEq _ _ _ _ ▸ h).2).symm⟩

/-! ### The claims -/

/-- C8: setting a request's status via `set_request_status` and setting
a purchase request's status via `set_purchase_request_status` never
change any chemical record: the chemicals table of the resulting state
is exactly that of the input state, for every state, id and status
string.  Stock deduction can therefore only happen inside
`approve_request_and_adjust`. -/
theorem spec_C8 (db : DB) (rid pid : Nat) (s s' : String) :
    (set_request_status db rid s).chemicals = db.chemicals ∧
    (set_purchase_request_status db pid s').chemicals = db.chemicals := by
  constructor
  · unfold set_request_status
    cases db.requests.find? (fun r => r.id == rid) <;> rfl
  · unfold set_purchase_request_status
    cases db.purchases.find? (fun pr => pr.id == pid) <;> rfl

/-- C2: whenever `approve_request_and_adjust` returns a denial — request
not found, already approved/fulfilled, chemical not found, non-positive
quantity, or insufficient stock — the returned state is exactly the
input state, so every chemical's amount and every request's status are
as they were before the call; and on the insufficient-stock path
(`have < need`) the denial reason is `notEnoughStock` carrying the
`have` value, the `need` value and the chemical's unit, with no
mutation. -/
theorem spec_C2 (db : DB) (rid : Nat) :
    (∀ msg db', approve_request_and_adjust db rid = ((false, msg), db') →
      db' = db) ∧
    (∀ req chem,
      db.requests.find? (fun r => r.id == rid) = some req →
      (req.status == "approved" || req.status == "fulfilled") = false →
      db.chemicals.find? (fun c => c.id == req.chem_id) = some chem →
      0 < req.quantity → chem.amount < req.quantity →
      approve_request_and_adjust db rid =
        ((false, .notEnoughStock chem.amount req.quantity chem.unit), db)) := by
  refine ⟨fun msg db' h => approve_deny_state db rid msg db' h, ?_⟩
  intro req chem hr hst hc hq hlt
  have hq' : ¬ req.quantity ≤ 0 := not_le.mpr hq
  simp [approve_request_and_adjust, hr, hst, hc, hq', hlt]

/-- Witness for C2: a store with 10 L of Ethanol and a pending request
for 15 L is denied with the reason carrying have = 10, need = 15 and
unit "L", and the state is unchanged. -/
theorem spec_C2_witness :
    approve_request_and_adjust dbBig 1 =
      ((false, .notEnoughStock 10 15 "L"), dbBig) ∧
    (approve_request_and_adjust dbBig 1).2 = dbBig := by
  have h := (spec_C2 dbBig 1).2
    ⟨1, 1, "Ada", "Lovelace", "ada@lab.org", 15, "pending", 0⟩
    ⟨1, "Ethanol", 10, "L", "", ""⟩
    (by decide) (by decide) (by decide) (by decide) (by decide)
  exact ⟨h, by rw [h]⟩

/-- C3: for every pending request whose chemical exists, whose quantity
is strictly positive and whose chemical has at least the requested
amount in stock, `approve_request_and_adjust` succeeds: in one resulting
state the chemical's amount becomes the old amount minus the requested
quantity and the request's status becomes `"approved"`, and the returned
message carries the chemical's new stock level. -/
theorem spec_C3 (db : DB) (rid : Nat) (req : Request) (chem : Chemical)
    (hr : db.requests.find? (fun r => r.id == rid) = some req)
    (hpend : req.status = "pending")
    (hc : db.chemicals.find? (fun c => c.id == req.chem_id) = some chem)
    (hq : 0 < req.quantity) (hle : req.quantity ≤ chem.amount) :
    ∃ db', approve_request_and_adjust db rid =
        ((true, .approvedNewStock chem.name (chem.amount - req.quantity)
            chem.unit), db') ∧
      db'.chemicals.find? (fun c => c.id == req.chem_id) =
        some { chem with amount := chem.amount - req.quantity } ∧
      db'.requests.find? (fun r => r.id == rid) =
        some { req with status := "approved" } ∧
      db'.purchases = db.purchases := by
  have hst : (req.status == "approved" || req.status == "fulfilled")
      = false := by simp [hpend]
  have hq' : ¬ req.quantity ≤ 0 := not_le.mpr hq
  have hlt' : ¬ chem.amount < req.quantity := not_lt.mpr hle
  refine ⟨_, approve_success_eq db rid req chem hr hst hc hq' hlt',
    ?_, ?_, rfl⟩
  · show (updateFirst _ _ db.chemicals).find? _ = _
    rw [find?_updateFirst
      (fun c => { c with amount := chem.amount - req.quantity })
      (fun c => c.id == req.chem_id) (fun x => rfl) db.chemicals, hc]
    rfl
  · show (updateFirst _ _ db.requests).find? _ = _
    rw [find?_updateFirst (fun r => { r with status := "approved" })
      (fun r => r.id == rid) (fun x => rfl) db.requests, hr]
    rfl

/-- Witness for C3: Ethanol with amount 5 L and a pending request for
2 L is approved, the amount becomes 3, the status becomes approved. -/
theorem spec_C3_witness :
    ∃ db', approve_request_and_adjust dbEthReq 1 =
        ((true, .approvedNewStock "Ethanol" 3 "L"), db') ∧
      db'.chemicals.find? (fun c => c.id == 1) =
        some ⟨1, "Ethanol", 3, "L", "Cabinet", ""⟩ ∧
      db'.requests.find? (fun r => r.id == 1) =
        some ⟨1, 1, "Ada", "Lovelace", "ada@lab.org", 2, "approved", 0⟩ ∧
      db'.purchases = dbEthReq.purchases := by
  obtain ⟨db', h1, h2, h3, h4⟩ := spec_C3 dbEthReq 1
    ⟨1, 1, "Ada", "Lovelace", "ada@lab.org", 2, "pending", 0⟩
    ⟨1, "Ethanol", 5, "L", "Cabinet", ""⟩
    (by decide) rfl (by decide) (by decide) (by decide)
  refine ⟨db', ?_, ?_, ?_, h4⟩
  · rw [h1]; norm_num
  · rw [h2]; norm_num
  · exact h3

/-- C1: a request whose status is already `"approved"` or `"fulfilled"`
is denied with the `alreadyProcessed` reason carrying that status and
the state unchanged; consequently, after a successful approval, a second
call on the same request id returns a denial and leaves the state (in
particular every chemical's amount) unchanged; and a request whose
status is `"rejected"` is not guarded: with sufficient stock it is
approved and deducted again. -/
theorem spec_C1 (db : DB) (rid : Nat) :
    (∀ req, db.requests.find? (fun r => r.id == rid) = some req →
      (req.status = "approved" ∨ req.status = "fulfilled") →
      approve_request_and_adjust db rid =
        ((false, .alreadyProcessed req.status), db)) ∧
    (∀ msg db', approve_request_and_adjust db rid = ((true, msg), db') →
      (approve_request_and_adjust db' rid).1.1 = false ∧
      (approve_request_and_adjust db' rid).2 = db') ∧
    (∀ req chem, db.requests.find? (fun r => r.id == rid) = some req →
      req.status = "rejected" →
      db.chemicals.find? (fun c => c.id == req.chem_id) = some chem →
      0 < req.quantity → req.quantity ≤ chem.amount →
      (approve_request_and_adjust db rid).1.1 = true ∧
      (approve_request_and_adjust db rid).2.chemicals.find?
          (fun c => c.id == req.chem_id) =
        some { chem with amount := chem.amount - req.quantity }) := by
  refine ⟨?_, ?_, ?_⟩
  · intro req hr hst
    have hb : (req.status == "approved" || req.status == "fulfilled")
        = true := by rcases hst with h | h <;> simp [h]
    simp [approve_request_and_adjust, hr, hb]
  · intro msg db' h
    obtain ⟨req, chem, hr, hst, hc, hq, hlt, hdb⟩ :=
      approve_success_inv db rid msg db' h
    subst hdb
    have hfind : (updateFirst (fun r => { r with status := "approved" })
        (fun r => r.id == rid) db.requests).find? (fun r => r.id == rid) =
        some { req with status := "approved" } := by
      rw [find?_updateFirst (fun r => { r with status := "approved" })
        (fun r => r.id == rid) (fun x => rfl) db.requests, hr]
      rfl
    constructor
    · simp [approve_request_and_adjust, hfind]
    · simp [approve_request_and_adjust, hfind]
  · intro req chem hr hst hc hq hle
    have hstb : (req.status == "approved" || req.status == "fulfilled")
        = false := by simp [hst]
    have hq' : ¬ req.quantity ≤ 0 := not_le.mpr hq
    have hlt' : ¬ chem.amount < req.quantity := not_lt.mpr hle
    rw [approve_success_eq db rid req chem hr hstb hc hq' hlt']
    refine ⟨rfl, ?_⟩
    show (updateFirst _ _ db.chemicals).find? _ = _
    rw [find?_updateFirst
      (fun c => { c with amount := chem.amount - req.quantity })
      (fun c => c.id == req.chem_id) (fun x => rfl) db.chemicals, hc]
    rfl

/-- Witness for C1: after approving the 2 L Ethanol request, a second
approval call is denied with reason `alreadyProcessed "approved"` and
leaves the state unchanged; overwriting the status to `"rejected"`
re-enables approval, which deducts stock a second time. -/
theorem spec_C1_witness :
    (approve_request_and_adjust dbApproved 1 =
      ((false, .alreadyProcessed "approved"), dbApproved)) ∧
    ((approve_request_and_adjust dbApproved 1).1.1 = false ∧
      (approve_request_and_adjust dbApproved 1).2 = dbApproved) ∧
    ((approve_request_and_adjust dbRejected 1).1.1 = true) := by
  have h1 := (spec_C1 dbApproved 1).1
    ⟨1, 1, "Ada", "Lovelace", "ada@lab.org", 2, "approved", 0⟩
    (by decide) (Or.inl rfl)
  have h2 := (spec_C1 dbEthReq 1).2.1
    (.approvedNewStock "Ethanol" (5 - 2) "L") dbApproved rfl
  have h3 := (spec_C1 dbRejected 1).2.2
    ⟨1, 1, "Ada", "Lovelace", "ada@lab.org", 2, "rejected", 0⟩
    ⟨1, "Ethanol", 5 - 2, "L", "Cabinet", ""⟩
    (by decide) rfl rfl (by norm_num) (by norm_num)
  exact ⟨h1, h2, h3.1⟩

theorem set_request_status_chemicals (db : DB) (rid : Nat) (s : String) :
    (set_request_status db rid s).chemicals = db.chemicals := by
  unfold set_request_status
  cases db.requests.find? (fun r => r.id == rid) <;> rfl

theorem set_purchase_request_status_chemicals (db : DB) (rid : Nat)
    (s : String) :
    (set_purchase_request_status db rid s).chemicals = db.chemicals := by
  unfold set_purchase_request_status
  cases db.purchases.find? (fun pr => pr.id == rid) <;> rfl

/-- C4 (amended): in every state reachable from the fresh database by
sequences of the public operations in which chemicals are only upserted
with non-negative amounts and direct stock adjustments never push the
adjusted chemical below zero, every chemical's amount is non-negative.
In particular `approve_request_and_adjust` alone can never create a
negative amount. -/
theorem spec_C4 (db : DB) (h : Reachable db) :
    ∀ c ∈ db.chemicals, 0 ≤ c.amount := by
  induction h with
  | init => intro c hc; simp [emptyDB] at hc
  | upsert db name amount unit location notes hre hpos ih =>
    intro c hc
    cases hfind : db.chemicals.find? (fun c => c.name == pyStrip name) with
    | none =>
      simp [upsert_chemical, hfind] at hc
      rcases hc with h | h
      · exact ih c h
      · rw [h]; simpa using hpos
    | some c₀ =>
      simp [upsert_chemical, hfind] at hc
      rcases mem_updateFirst hc with h | ⟨y, hy, hpy, hxy⟩
      · exact ih c h
      · rw [hxy]; simpa using hpos
  | adjust db db' chem_id delta hre hguard heq ih =>
    intro c hc
    unfold update_stock at heq
    cases hfind : db.chemicals.find? (fun c => c.id == chem_id) with
    | none => rw [hfind] at heq; exact absurd heq (by simp)
    | some c₀ =>
      rw [hfind] at heq
      injection heq with heq'
      subst heq'
      simp only [] at hc
      rcases mem_updateFirst hc with h | ⟨y, hy, hpy, hxy⟩
      · exact ih c h
      · rw [hxy]
        exact hguard y hy (by simpa using hpy)
  | addReq db chem_id fn sn em qty hre ih =>
    intro c hc
    simp only [add_request] at hc
    exact ih c hc
  | setReq db rid s hre ih =>
    intro c hc
    rw [set_request_status_chemicals] at hc
    exact ih c hc
  | addPur db mn cn sp am un f s e co ap hre ih =>
    intro c hc
    simp only [add_purchase_request] at hc
    exact ih c hc
  | setPur db rid s hre ih =>
    intro c hc
    rw [set_purchase_request_status_chemicals] at hc
    exact ih c hc
  | approve db rid hre ih =>
    intro c hc
    rcases happ : approve_request_and_adjust db rid with ⟨⟨ok, msg⟩, db'⟩
    rw [happ] at hc
    simp only [] at hc
    cases ok with
    | false =>
      rw [approve_deny_state db rid msg db' happ] at hc
      exact ih c hc
    | true =>
      obtain ⟨req, chem, hr, hst, hcf, hq, hlt, hdb⟩ :=
        approve_success_inv db rid msg db' happ
      subst hdb
      simp only [] at hc
      rcases mem_updateFirst hc with h | ⟨y, hy, hpy, hxy⟩
      · exact ih c h
      · rw [hxy]
        simpa using sub_nonneg.mpr (not_lt.mp hlt)

/-- Witness for C4: the Ethanol store is reachable under the guarded
operations and all its amounts are non-negative. -/
theorem spec_C4_witness :
    Reachable dbEthanol ∧ ∀ c ∈ dbEthanol.chemicals, 0 ≤ c.amount := by
  have hre : Reachable dbEthanol :=
    Reachable.upsert emptyDB "Ethanol" 5 "L" "Cabinet" "" Reachable.init
      (by norm_num)
  exact ⟨hre, spec_C4 dbEthanol hre⟩

/-- Counterexample for C4 as stated: the state obtained by upserting
"X" with amount 5 and then calling `update_stock` with delta -10 is
reachable through the public operations, yet the amount of "X" is
5 + (-10) < 0. -/
theorem spec_C4_counterexample :
    ReachableAny dbNeg ∧ ¬ (∀ c ∈ dbNeg.chemicals, 0 ≤ c.amount) := by
  constructor
  · exact ReachableAny.adjust dbX dbNeg 1 (-10)
      (ReachableAny.upsert emptyDB "X" 5 "g" "" "" ReachableAny.init) rfl
  · intro hall
    have hmem : (⟨1, "X", 5 + (-10), "g", "", ""⟩ : Chemical)
        ∈ dbNeg.chemicals := List.mem_singleton.mpr rfl
    have := hall _ hmem
    norm_num at this

/-- C6 (amended): `add_request` performs no validation at all: for any
quantity (zero included) and any `chem_id` (whether or not a chemical
with that id exists) it inserts a new request with status `"pending"`
and the server-assigned creation timestamp, retrievable under the fresh
id; the `quantity > 0` check lives in the UI form caller, and no
existence check on `chem_id` is performed anywhere. -/
theorem spec_C6 (db : DB) (chem_id : Nat) (fn sn em : String) (qty : ℚ)
    (hfresh : ∀ r ∈ db.requests, r.id ≠ db.nextReqId) :
    ∃ r, (add_request db chem_id fn sn em qty).requests.find?
        (fun r => r.id == db.nextReqId) = some r ∧
      r.status = "pending" ∧ r.quantity = qty ∧ r.chem_id = chem_id ∧
      r.created_at = db.clock := by
  have h1 : db.requests.find? (fun r => r.id == db.nextReqId) = none :=
    List.find?_eq_none.mpr fun r hr => by simpa using hfresh r hr
  refine ⟨{ id := db.nextReqId, chem_id := chem_id,
            first_name := pyStrip fn, surname := pyStrip sn,
            requester_email := pyStrip em, quantity := qty,
            status := "pending", created_at := db.clock },
          ?_, rfl, rfl, rfl, rfl⟩
  show (db.requests ++ [_]).find? _ = _
  rw [List.find?_append, h1, Option.none_or,
    List.find?_cons_of_pos _ (by simp)]

/-- Witness for C6 (amended): on the empty database, a request for
quantity 0 of the nonexistent chemical 42 is nevertheless inserted as
pending. -/
theorem spec_C6_witness :
    ∃ r, ((add_request emptyDB 42 "Ada" "Lovelace" "ada@lab.org" 0).requests).find?
        (fun r => r.id == emptyDB.nextReqId) = some r ∧
      r.status = "pending" ∧ r.quantity = 0 ∧ r.chem_id = 42 ∧
      r.created_at = emptyDB.clock :=
  spec_C6 emptyDB 42 "Ada" "Lovelace" "ada@lab.org" 0 (by simp [emptyDB])

/-- Counterexample for C6 as stated: `add_request` neither fails on a
non-positive quantity nor on a dangling `chem_id` — called on the empty
database (so chemical 42 does not exist) with quantity 0, it returns
normally and inserts the pending request.  The function is total in the
source: it raises no `ValidationError` or `NotFoundError`. -/
theorem spec_C6_counterexample :
    (add_request emptyDB 42 "Ada" "Lovelace" "ada@lab.org" 0).requests =
      [⟨1, 42, "Ada", "Lovelace", "ada@lab.org", 0, "pending", 0⟩] ∧
    emptyDB.chemicals.find? (fun c => c.id == 42) = none :=
  ⟨by decide, by decide⟩

/-- C7 (amended): `upsert_chemical` performs no name validation: called
with a name that is blank after stripping, it proceeds as an ordinary
upsert keyed on the empty string — here, when no empty-named chemical
exists, it inserts a record whose name is the empty string.  The
"name required" check lives in the UI form caller. -/
theorem spec_C7 (db : DB) (name : String) (amount : ℚ)
    (unit location notes : String) (hblank : pyStrip name = "")
    (hnone : db.chemicals.find? (fun c => c.name == "") = none) :
    (upsert_chemical db name amount unit location notes).chemicals =
      db.chemicals ++
        [{ id := db.nextChemId, name := "", amount := amount,
           unit := pyStrip unit, location := pyStrip location,
           notes := pyStrip notes }] := by
  simp [upsert_chemical, hblank, hnone]

/-- Witness for C7 (amended): upserting the all-blank name "   " into
the empty database inserts a chemical named "". -/
theorem spec_C7_witness :
    (upsert_chemical emptyDB "   " 5 "g" "Shelf" "n").chemicals =
      emptyDB.chemicals ++
        [{ id := 1, name := "", amount := 5, unit := "g",
           location := "Shelf", notes := "n" }] :=
  spec_C7 emptyDB "   " 5 "g" "Shelf" "n" (by decide) (by decide)

/-- Counterexample for C7 as stated: far from failing with a
`ValidationError` and leaving the store untouched, `upsert_chemical`
called with the blank name "   " inserts a chemical whose name is the
empty string. -/
theorem spec_C7_counterexample :
    (upsert_chemical emptyDB "   " 5 "g" "Shelf" "n").chemicals =
      [⟨1, "", 5, "g", "Shelf", "n"⟩] := by decide

theorem upsert_eq_insert (db : DB) (name : String) (amount : ℚ)
    (unit location notes : String)
    (h : db.chemicals.find? (fun c => c.name == pyStrip name) = none) :
    upsert_chemical db name amount unit location notes =
      { db with
        chemicals := db.chemicals ++
          [{ id := db.nextChemId, name := pyStrip name, amount := amount,
             unit := pyStrip unit, location := pyStrip location,
             notes := pyStrip notes }],
        nextChemId := db.nextChemId + 1 } := by
  simp [upsert_chemical, h]

theorem upsert_eq_update (db : DB) (name : String) (amount : ℚ)
    (unit location notes : String) (c₀ : Chemical)
    (h : db.chemicals.find? (fun c => c.name == pyStrip name) = some c₀) :
    upsert_chemical db name amount unit location notes =
      { db with
        chemicals := updateFirst
          (fun c =>
            { c with amount := amount, unit := pyStrip unit,
                     location := pyStrip location, notes := pyStrip notes })
          (fun c => c.name == pyStrip name) db.chemicals } := by
  simp [upsert_chemical, h]

/-- C5: `upsert_chemical` is an update-or-insert keyed on the trimmed
name: in any state in which the name-uniqueness constraint holds for the
key (at most one chemical carries it), two successive upserts with the
same name leave exactly one chemical with that (trimmed) name, and it
carries the second call's amount, unit, location and notes. -/
theorem spec_C5 (db : DB) (n : String) (a₁ a₂ : ℚ)
    (u₁ l₁ t₁ u₂ l₂ t₂ : String)
    (huniq : (db.chemicals.filter (fun c => c.name == pyStrip n)).length ≤ 1) :
    ∃ i, ((upsert_chemical (upsert_chemical db n a₁ u₁ l₁ t₁)
          n a₂ u₂ l₂ t₂).chemicals.filter
        (fun c => c.name == pyStrip n)) =
      [{ id := i, name := pyStrip n, amount := a₂, unit := pyStrip u₂,
         location := pyStrip l₂, notes := pyStrip t₂ }] := by
  cases hf : db.chemicals.find? (fun c => c.name == pyStrip n) with
  | none =>
    have hall : ∀ x ∈ db.chemicals, (x.name == pyStrip n) = false :=
      fun x hx => by simpa using List.find?_eq_none.mp hf x hx
    have hfil : db.chemicals.filter (fun c => c.name == pyStrip n) = [] :=
      List.filter_eq_nil_iff.mpr fun x hx => by simpa using hall x hx
    have h1 : (upsert_chemical db n a₁ u₁ l₁ t₁).chemicals =
        db.chemicals ++
          [{ id := db.nextChemId, name := pyStrip n, amount := a₁,
             unit := pyStrip u₁, location := pyStrip l₁,
             notes := pyStrip t₁ }] := by
      rw [upsert_eq_insert db n a₁ u₁ l₁ t₁ hf]
    have h2 : (upsert_chemical db n a₁ u₁ l₁ t₁).chemicals.find?
        (fun c => c.name == pyStrip n) =
        some { id := db.nextChemId, name := pyStrip n, amount := a₁,
               unit := pyStrip u₁, location := pyStrip l₁,
               notes := pyStrip t₁ } := by
      rw [h1, List.find?_append, hf, Option.none_or,
        List.find?_cons_of_pos _ (by simp)]
    have h3 : (upsert_chemical (upsert_chemical db n a₁ u₁ l₁ t₁)
        n a₂ u₂ l₂ t₂).chemicals =
        updateFirst
          (fun c =>
            { c with amount := a₂, unit := pyStrip u₂,
                     location := pyStrip l₂, notes := pyStrip t₂ })
          (fun c => c.name == pyStrip n)
          (upsert_chemical db n a₁ u₁ l₁ t₁).chemicals := by
      rw [upsert_eq_update _ n a₂ u₂ l₂ t₂ _ h2]
    refine ⟨db.nextChemId, ?_⟩
    rw [h3, h1, updateFirst_append_left _ _ hall, List.filter_append, hfil]
    simp [updateFirst]
  | some c₀ =>
    have hname : c₀.name = pyStrip n := by
      have := List.find?_some hf; simpa using this
    have hfil : db.chemicals.filter (fun c => c.name == pyStrip n) = [c₀] :=
      filter_eq_of_find?_some hf huniq
    have h1 : (upsert_chemical db n a₁ u₁ l₁ t₁).chemicals =
        updateFirst
          (fun c =>
            { c with amount := a₁, unit := pyStrip u₁,
                     location := pyStrip l₁, notes := pyStrip t₁ })
          (fun c => c.name == pyStrip n) db.chemicals := by
      rw [upsert_eq_update db n a₁ u₁ l₁ t₁ c₀ hf]
    have hfil1 : (upsert_chemical db n a₁ u₁ l₁ t₁).chemicals.filter
        (fun c => c.name == pyStrip n) =
        [{ c₀ with amount := a₁, unit := pyStrip u₁,
                   location := pyStrip l₁, notes := pyStrip t₁ }] := by
      rw [h1]
      exact filter_updateFirst_single
        (fun c : Chemical =>
          { c with amount := a₁, unit := pyStrip u₁,
                   location := pyStrip l₁, notes := pyStrip t₁ })
        (fun c => c.name == pyStrip n) (fun x hx => hx) hfil
    have h2 : (upsert_chemical db n a₁ u₁ l₁ t₁).chemicals.find?
        (fun c => c.name == pyStrip n) =
        some { c₀ with amount := a₁, unit := pyStrip u₁,
                       location := pyStrip l₁, notes := pyStrip t₁ } := by
      rw [h1, find?_updateFirst
        (fun c : Chemical =>
          { c with amount := a₁, unit := pyStrip u₁,
                   location := pyStrip l₁, notes := pyStrip t₁ })
        (fun c => c.name == pyStrip n) (fun x => rfl), hf]
      rfl
    have h3 : (upsert_chemical (upsert_chemical db n a₁ u₁ l₁ t₁)
        n a₂ u₂ l₂ t₂).chemicals =
        updateFirst
          (fun c =>
            { c with amount := a₂, unit := pyStrip u₂,
                     location := pyStrip l₂, notes := pyStrip t₂ })
          (fun c => c.name == pyStrip n)
          (upsert_chemical db n a₁ u₁ l₁ t₁).chemicals := by
      rw [upsert_eq_update _ n a₂ u₂ l₂ t₂ _ h2]
    refine ⟨c₀.id, ?_⟩
    rw [h3, filter_updateFirst_single
      (fun c : Chemical =>
        { c with amount := a₂, unit := pyStrip u₂,
                 location := pyStrip l₂, notes := pyStrip t₂ })
      (fun c => c.name == pyStrip n) (fun x hx => hx) hfil1]
    simp [hname]

/-- Witness for C5: upserting "NaCl" with (10, "g", "ShelfA", "") and
then (5, "kg", "ShelfB", "x") into the empty store leaves exactly one
chemical named "NaCl", carrying the second call's values. -/
theorem spec_C5_witness :
    ∃ i, ((upsert_chemical (upsert_chemical emptyDB "NaCl" 10 "g" "ShelfA" "")
          "NaCl" 5 "kg" "ShelfB" "x").chemicals.filter
        (fun c => c.name == pyStrip "NaCl")) =
      [{ id := i, name := pyStrip "NaCl", amount := 5,
         unit := pyStrip "kg", location := pyStrip "ShelfB",
         notes := pyStrip "x" }] :=
  spec_C5 emptyDB "NaCl" 10 5 "g" "ShelfA" "" "kg" "ShelfB" "x" (by decide)

/-- C10: `upsert_chemical` keys on exact, case-sensitive equality of the
trimmed name, while `list_chemicals` matches case-insensitively: two
upserts whose trimmed names are distinct but agree after lower-casing
(names differing only in letter case) create two distinct records, and
one search whose term matches the first name case-insensitively returns
rows for both. -/
theorem spec_C10 (db : DB) (n₁ n₂ s : String) (a₁ a₂ : ℚ)
    (u₁ l₁ t₁ u₂ l₂ t₂ : String)
    (hne : pyStrip n₁ ≠ pyStrip n₂)
    (h₁ : db.chemicals.find? (fun c => c.name == pyStrip n₁) = none)
    (h₂ : db.chemicals.find? (fun c => c.name == pyStrip n₂) = none)
    (hs : s.isEmpty = false)
    (hm₁ : ilikeSub s (pyStrip n₁) = true)
    (hlow : lowerChars (pyStrip n₁).data = lowerChars (pyStrip n₂).data) :
    (upsert_chemical (upsert_chemical db n₁ a₁ u₁ l₁ t₁)
        n₂ a₂ u₂ l₂ t₂).chemicals =
      db.chemicals ++
        [{ id := db.nextChemId, name := pyStrip n₁, amount := a₁,
           unit := pyStrip u₁, location := pyStrip l₁,
           notes := pyStrip t₁ },
         { id := db.nextChemId + 1, name := pyStrip n₂, amount := a₂,
           unit := pyStrip u₂, location := pyStrip l₂,
           notes := pyStrip t₂ }] ∧
    chemRow { id := db.nextChemId, name := pyStrip n₁, amount := a₁,
              unit := pyStrip u₁, location := pyStrip l₁,
              notes := pyStrip t₁ } ∈
      list_chemicals (upsert_chemical (upsert_chemical db n₁ a₁ u₁ l₁ t₁)
        n₂ a₂ u₂ l₂ t₂) s ∧
    chemRow { id := db.nextChemId + 1, name := pyStrip n₂, amount := a₂,
              unit := pyStrip u₂, location := pyStrip l₂,
              notes := pyStrip t₂ } ∈
      list_chemicals (upsert_chemical (upsert_chemical db n₁ a₁ u₁ l₁ t₁)
        n₂ a₂ u₂ l₂ t₂) s := by
  have hm₂ : ilikeSub s (pyStrip n₂) = true := by
    unfold ilikeSub at hm₁ ⊢
    rw [← hlow]
    exact hm₁
  have hc1 : (upsert_chemical db n₁ a₁ u₁ l₁ t₁).chemicals =
      db.chemicals ++
        [{ id := db.nextChemId, name := pyStrip n₁, amount := a₁,
           unit := pyStrip u₁, location := pyStrip l₁,
           notes := pyStrip t₁ }] := by
    rw [upsert_eq_insert db n₁ a₁ u₁ l₁ t₁ h₁]
  have hnext1 : (upsert_chemical db n₁ a₁ u₁ l₁ t₁).nextChemId =
      db.nextChemId + 1 := by
    rw [upsert_eq_insert db n₁ a₁ u₁ l₁ t₁ h₁]
  have hfind2 : (upsert_chemical db n₁ a₁ u₁ l₁ t₁).chemicals.find?
      (fun c => c.name == pyStrip n₂) = none := by
    rw [hc1, List.find?_append, h₂, Option.none_or,
      List.find?_cons_of_neg _ (by simpa using hne)]
    rfl
  have hc2 : (upsert_chemical (upsert_chemical db n₁ a₁ u₁ l₁ t₁)
      n₂ a₂ u₂ l₂ t₂).chemicals =
      db.chemicals ++
        [{ id := db.nextChemId, name := pyStrip n₁, amount := a₁,
           unit := pyStrip u₁, location := pyStrip l₁,
           notes := pyStrip t₁ },
         { id := db.nextChemId + 1, name := pyStrip n₂, amount := a₂,
           unit := pyStrip u₂, location := pyStrip l₂,
           notes := pyStrip t₂ }] := by
    rw [upsert_eq_insert _ n₂ a₂ u₂ l₂ t₂ hfind2, hc1, hnext1]
    simp
  have hlist : list_chemicals (upsert_chemical
      (upsert_chemical db n₁ a₁ u₁ l₁ t₁) n₂ a₂ u₂ l₂ t₂) s =
      List.insertionSort rowLe
        (((upsert_chemical (upsert_chemical db n₁ a₁ u₁ l₁ t₁)
            n₂ a₂ u₂ l₂ t₂).chemicals.map chemRow).filter
          fun r => ilikeSub s r.name) := by
    simp [list_chemicals, hs]
  refine ⟨hc2, ?_, ?_⟩
  · rw [hlist, List.mem_insertionSort, List.mem_filter]
    refine ⟨List.mem_map_of_mem chemRow ?_, ?_⟩
    · rw [hc2]; simp
    · exact hm₁
  · rw [hlist, List.mem_insertionSort, List.mem_filter]
    refine ⟨List.mem_map_of_mem chemRow ?_, ?_⟩
    · rw [hc2]; simp
    · exact hm₂

/-- Witness for C10: upserting "NaCl" and then "nacl" creates two
records, and the single search "nacl" returns both rows. -/
theorem spec_C10_witness :
    (upsert_chemical (upsert_chemical emptyDB "NaCl" 10 "g" "ShelfA" "")
        "nacl" 5 "kg" "ShelfB" "x").chemicals =
      [⟨1, "NaCl", 10, "g", "ShelfA", ""⟩, ⟨2, "nacl", 5, "kg", "ShelfB", "x"⟩] ∧
    (⟨1, "NaCl", 10, "g", "ShelfA"⟩ : ChemRow) ∈
      list_chemicals (upsert_chemical
        (upsert_chemical emptyDB "NaCl" 10 "g" "ShelfA" "")
        "nacl" 5 "kg" "ShelfB" "x") "nacl" ∧
    (⟨2, "nacl", 5, "kg", "ShelfB"⟩ : ChemRow) ∈
      list_chemicals (upsert_chemical
        (upsert_chemical emptyDB "NaCl" 10 "g" "ShelfA" "")
        "nacl" 5 "kg" "ShelfB" "x") "nacl" :=
  spec_C10 emptyDB "NaCl" "nacl" "nacl" 10 5 "g" "ShelfA" "" "kg" "ShelfB" "x"
    (by decide) (by decide) (by decide) (by decide) (by decide) (by decide)

theorem list_chemicals_eq (db : DB) (s : String) :
    list_chemicals db s = List.insertionSort rowLe
      (if s.isEmpty then db.chemicals.map chemRow
       else (db.chemicals.map chemRow).filter fun r => ilikeSub s r.name) :=
  rfl

theorem list_requests_none_eq (db : DB) :
    list_requests db none = List.insertionSort reqRowGe (joinReqRows db) :=
  rfl

theorem list_requests_some_raw (db : DB) (st : String) :
    list_requests db (some st) = List.insertionSort reqRowGe
      (if st.isEmpty then joinReqRows db
       else (joinReqRows db).filter fun row => row.status == st) :=
  rfl

theorem list_requests_some_eq (db : DB) (st : String)
    (h : st.isEmpty = false) :
    list_requests db (some st) = List.insertionSort reqRowGe
      ((joinReqRows db).filter fun row => row.status == st) := by
  rw [list_requests_some_raw, if_neg (by simp [h])]

theorem filterMap_length_of_isSome {f : α → Option β} :
    ∀ l : List α, (∀ x ∈ l, (f x).isSome) →
      (l.filterMap f).length = l.length := by
  intro l
  induction l with
  | nil => intro _; rfl
  | cons a t ih =>
    intro h
    cases hfa : f a with
    | none => exact absurd (h a (List.mem_cons_self a t)) (by simp [hfa])
    | some b =>
      simp [List.filterMap_cons, hfa,
        ih fun x hx => h x (List.mem_cons_of_mem a hx)]

theorem joinReqRows_length (db : DB)
    (hFK : ∀ r ∈ db.requests, ∃ c ∈ db.chemicals, c.id = r.chem_id) :
    (joinReqRows db).length = db.requests.length := by
  apply filterMap_length_of_isSome
  intro r hr
  obtain ⟨c, hc, hid⟩ := hFK r hr
  cases hfind : db.chemicals.find? (fun c => c.id == r.chem_id) with
  | none => exact absurd (List.find?_eq_none.mp hfind c hc) (by simp [hid])
  | some c' => simp [hfind]

/-- C9: `list_chemicals` returns rows sorted ascending by name; with an
empty search term the rows are exactly all chemicals, with a non-empty
term exactly those whose name matches the term case-insensitively as a
substring; the output is independent of insertion order (any
permutation of the stored rows lists identically, given unique names).
`list_requests` returns rows sorted by descending id, restricted to the
requests matching the exact status filter when one is given; with the
foreign keys intact no request is dropped by the join. -/
theorem spec_C9 (db : DB) (s st : String) :
    List.Sorted rowLe (list_chemicals db s) ∧
    (list_chemicals db "").Perm (db.chemicals.map chemRow) ∧
    (s.isEmpty = false →
      (list_chemicals db s).Perm
        ((db.chemicals.map chemRow).filter fun r => ilikeSub s r.name)) ∧
    (∀ db' : DB, db.chemicals.Perm db'.chemicals →
      (db.chemicals.map Chemical.name).Nodup →
      list_chemicals db s = list_chemicals db' s) ∧
    List.Sorted reqRowGe (list_requests db (some st)) ∧
    List.Sorted reqRowGe (list_requests db none) ∧
    (st.isEmpty = false →
      (list_requests db (some st)).Perm
        ((joinReqRows db).filter fun row => row.status == st) ∧
      ∀ row ∈ list_requests db (some st), row.status = st) ∧
    (list_requests db none).Perm (joinReqRows db) ∧
    ((∀ r ∈ db.requests, ∃ c ∈ db.chemicals, c.id = r.chem_id) →
      (list_requests db none).length = db.requests.length) := by
  refine ⟨?_, ?_, ?_, ?_, ?_, ?_, ?_, ?_, ?_⟩
  · rw [list_chemicals_eq]
    exact List.sorted_insertionSort rowLe _
  · exact List.perm_insertionSort rowLe _
  · intro hs
    rw [list_chemicals_eq, if_neg (by simp [hs])]
    exact List.perm_insertionSort rowLe _
  · intro db' hperm hnd
    have hpr : (if s.isEmpty then db.chemicals.map chemRow
        else (db.chemicals.map chemRow).filter
          fun r => ilikeSub s r.name).Perm
        (if s.isEmpty then db'.chemicals.map chemRow
         else (db'.chemicals.map chemRow).filter
           fun r => ilikeSub s r.name) := by
      by_cases hse : s.isEmpty = true
      · rw [if_pos hse, if_pos hse]; exact hperm.map chemRow
      · rw [if_neg hse, if_neg hse]; exact (hperm.map chemRow).filter _
    have hbase : ((db.chemicals.map chemRow).map ChemRow.name).Nodup := by
      rw [List.map_map]
      exact hnd
    have hnodup : ((if s.isEmpty then db.chemicals.map chemRow
        else (db.chemicals.map chemRow).filter
          fun r => ilikeSub s r.name).map ChemRow.name).Nodup := by
      by_cases hse : s.isEmpty = true
      · rw [if_pos hse]; exact hbase
      · rw [if_neg hse]
        exact List.Nodup.sublist
          ((List.filter_sublist _).map ChemRow.name) hbase
    rw [list_chemicals_eq, list_chemicals_eq]
    apply sorted_key_eq
    · exact (List.perm_insertionSort _ _).trans
        (hpr.trans (List.perm_insertionSort _ _).symm)
    · exact List.sorted_insertionSort _ _
    · exact List.sorted_insertionSort _ _
    · exact ((List.perm_insertionSort rowLe _).map
        ChemRow.name).nodup_iff.mpr hnodup
  · rw [list_requests_some_raw]
    exact List.sorted_insertionSort reqRowGe _
  · rw [list_requests_none_eq]
    exact List.sorted_insertionSort reqRowGe _
  · intro hst
    constructor
    · rw [list_requests_some_eq db st hst]
      exact List.perm_insertionSort reqRowGe _
    · intro row hrow
      rw [list_requests_some_eq db st hst,
        List.mem_insertionSort] at hrow
      simpa using List.of_mem_filter hrow
  · rw [list_requests_none_eq]
    exact List.perm_insertionSort reqRowGe _
  · intro hFK
    rw [list_requests_none_eq,
      (List.perm_insertionSort reqRowGe _).length_eq]
    exact joinReqRows_length db hFK

/-- Witness for C9: on the store where "Zinc" was inserted before
"Acetone", the full listing comes out in alphabetical order; the search
"c" lists exactly the case-insensitive matches; the pending-request
listing is sorted by descending id, all rows pending, and the join
drops nothing. -/
theorem spec_C9_witness :
    List.Sorted rowLe (list_chemicals dbWR "") ∧
    (list_chemicals dbWR "").Perm (dbWR.chemicals.map chemRow) ∧
    ("c".isEmpty = false ∧
      (list_chemicals dbWR "c").Perm
        ((dbWR.chemicals.map chemRow).filter fun r => ilikeSub "c" r.name)) ∧
    List.Sorted reqRowGe (list_requests dbWR (some "pending")) ∧
    ("pending".isEmpty = false ∧
      ∀ row ∈ list_requests dbWR (some "pending"), row.status = "pending") ∧
    ((∀ r ∈ dbWR.requests, ∃ c ∈ dbWR.chemicals, c.id = r.chem_id) ∧
      (list_requests dbWR none).length = dbWR.requests.length) ∧
    list_chemicals dbWR "" =
      [⟨2, "Acetone", 1, "L", ""⟩, ⟨1, "Zinc", 3, "g", ""⟩] := by
  have h := spec_C9 dbWR "c" "pending"
  have h0 := spec_C9 dbWR "" "pending"
  have hFK : ∀ r ∈ dbWR.requests, ∃ c ∈ dbWR.chemicals, c.id = r.chem_id := by
    decide
  exact ⟨h0.1, h0.2.1, ⟨rfl, h.2.2.1 rfl⟩, h.2.2.2.2.1,
    ⟨rfl, (h.2.2.2.2.2.2.1 rfl).2⟩,
    ⟨hFK, h.2.2.2.2.2.2.2.2 hFK⟩, by decide⟩

end ChemInv
